import Mathlib

set_option autoImplicit false

/-!
Verification of the SveltyCMS collection compile-cache-serve pipeline.

The definitions below are a shallow embedding of the TypeScript sources:

* `src/routes/api/collectionCompile/compile.ts` (scanner / hash-gated
  transpiler / artifact writer),
* `src/routes/api/collectionCompile/+server.ts` (compilation orchestrator),
* `src/routes/api/collections/+server.ts` (collection read endpoints),
* `src/routes/api/categories/+server.ts` (category tree update).

JavaScript strings are modelled by `String` (lists of characters), machine
timestamps (`Date.now()`, `mtime`) by `Nat`, and fallible asynchronous
operations by `Except String`.  External libraries that the repository calls
but does not contain — `crypto.createHash('md5')` and `ts.transpileModule` —
are taken as function parameters; the only property of the MD5 hex digest the
code relies on (it contains no newline) appears as an explicit hypothesis.
-/

namespace SveltyCMS

/-! ### Character classes used by the JavaScript regular expressions -/

/-- JavaScript `\w` (ASCII word character, as used by the `\b` boundary). -/
def isWordChar (c : Char) : Bool := c.isAlpha || c.isDigit || c = '_'

/-- JavaScript `\s` (whitespace; the Unicode space classes are irrelevant to
the sources verified here). -/
def isJsSpace (c : Char) : Bool :=
  c = ' ' || c = '\t' || c = '\n' || c = '\r' || c = '\x0b' || c = '\x0c'

/-- A character matched by the regex class `["']`. -/
def isQuoteChar (c : Char) : Bool := c = '\"' || c = '\''

/-! ### compile.ts — hash embedding and staleness gate -/

/-- First component of `content.split('\n')`: the characters before the first
newline (the whole string when it has no newline). -/
def firstLineChars (l : List Char) : List Char := l.takeWhile (fun c => c != '\n')

/-- `String.prototype.replace` with a plain-string pattern replaces only the
first occurrence; `removeFirstOccurrence pat l` deletes the first occurrence
of `pat` from `l` and is the identity when `pat` does not occur. -/
def removeFirstOccurrence (pat : List Char) : List Char → List Char
  | [] => []
  | c :: rest =>
    if pat.isPrefixOf (c :: rest) then (c :: rest).drop pat.length
    else c :: removeFirstOccurrence pat rest

/-- Embeds `getExistingHash` of `compile.ts`: the first line of the artifact
with the first occurrence of `"// "` removed
(`content.split('\n')[0].replace('// ', '')`).  The surrounding
`try`/`catch → null` only fires when the artifact cannot be read; callers in
this file always pass the content of an artifact that exists. -/
def getExistingHash (artifact : String) : String :=
  ⟨removeFirstOccurrence (("// ").data) (firstLineChars artifact.data)⟩

/-- Embeds the content written by `writeCompiledFile` of `compile.ts`:
`` `// ${contentHash}\n${code}` `` where `contentHash` is the MD5 hex digest
of the original source content (the digest function is the `hash`
parameter). -/
def writeCompiledFileContent (hash : String → String) (code originalContent : String) : String :=
  ("// ") ++ hash originalContent ++ ("\n") ++ code

/-- Embeds `shouldRecompile` of `compile.ts`.  A file-system entry is
`some (content, mtime)` when the file exists (`fs.stat` succeeded) and `none`
when it does not.  The JS code returns `true` when the JS artifact is absent,
`false` when the TS source is absent, and otherwise compares the current
source digest with the artifact's embedded hash and the two mtimes
(`contentHash !== existingHash || tsStats.mtime > jsStats.mtime`). -/
def shouldRecompile (hash : String → String) (ts js : Option (String × Nat)) : Bool :=
  match js with
  | none => true
  | some (jsContent, jsMtime) =>
    match ts with
    | none => false
    | some (tsContent, tsMtime) =>
      (hash tsContent != getExistingHash jsContent) || decide (jsMtime < tsMtime)

/-! ### compile.ts — `modifyTranspiledCode` (three sequential rewrites) -/

/-- The literal prefix of the regex `/import widgets from .*\n/g`. -/
def importWidgetsLit : List Char := ("import widgets from ").data

/-- Embeds `code.replace(/import widgets from .*\n/g, '')`.  In mode `true`
the scanner is inside a matched import line and drops characters through the
terminating newline.  In mode `false` a match starts exactly when the literal
prefix is present and some newline follows (`.*` cannot cross a newline, so
without a later newline the regex does not match at this position; the
literal itself contains no newline). -/
def stripImportWidgetsAux : Bool → List Char → List Char
  | _, [] => []
  | true, c :: rest =>
    if c = '\n' then stripImportWidgetsAux false rest else stripImportWidgetsAux true rest
  | false, c :: rest =>
    if importWidgetsLit.isPrefixOf (c :: rest) && (c :: rest).contains '\n' then
      stripImportWidgetsAux true rest
    else
      c :: stripImportWidgetsAux false rest

/-- Embeds a global plain-substring replacement such as
`code.replace(/widgets/g, 'globalThis.widgets')`: leftmost matches, scanning
resumes after the matched text of the original string (the replacement text is
not rescanned).  The `Nat` argument counts source characters still to skip
from the current match. -/
def replaceAllAux (pat repl : List Char) : Nat → List Char → List Char
  | _, [] => []
  | Nat.succ k, _ :: rest => replaceAllAux pat repl k rest
  | 0, c :: rest =>
    if 0 < pat.length && pat.isPrefixOf (c :: rest) then
      repl ++ replaceAllAux pat repl (pat.length - 1) rest
    else
      c :: replaceAllAux pat repl 0 rest

/-- The literal `from` of the regex `/(\bfrom\s+["']\..*)(["'])/g`. -/
def fromLit : List Char := ("from").data

/-- Splits a segment at its last quote character:
`splitAtLastQuote l = some (a, q, b)` with `l = a ++ q :: b`, `q` a quote, and
no quote in `b`.  This is where the greedy `.*` of
`/(\bfrom\s+["']\..*)(["'])/g` ends. -/
def splitAtLastQuote : List Char → Option (List Char × Char × List Char)
  | [] => none
  | c :: rest =>
    match splitAtLastQuote rest with
    | some (a, q, b) => some (c :: a, q, b)
    | none => if isQuoteChar c then some ([], c, rest) else none

/-- Tries to match `from\s+["']\..*["']` at the head of `l` (the `\b` to the
left is checked by the caller).  On success returns the replacement text
`$1.js$2` together with the number of source characters consumed: `\s+` must
be non-empty, the quote and the dot are literal, and the greedy `.*` (which
cannot cross a newline) ends at the last quote of the remaining line. -/
def matchFromImport (l : List Char) : Option (List Char × Nat) :=
  if fromLit.isPrefixOf l then
    let l1 := l.drop 4
    let ws := l1.takeWhile isJsSpace
    if ws.length = 0 then none
    else
      match l1.drop ws.length with
      | [] => none
      | q :: l2 =>
        if isQuoteChar q then
          match l2 with
          | [] => none
          | d :: l3 =>
            if d = '.' then
              let seg := l3.takeWhile (fun c => c != '\n')
              match splitAtLastQuote seg with
              | some (a, qc, _) =>
                some (fromLit ++ ws ++ q :: '.' :: (a ++ (".js").data ++ [qc]),
                      7 + ws.length + a.length)
              | none => none
            else none
        else none
  else none

/-- Embeds `code.replace(/(\bfrom\s+["']\..*)(["'])/g, '$1.js$2')`.  The
`Nat` argument counts source characters still to skip from the current match;
the `Bool` argument records whether the previous source character is a word
character (the state of the `\b` boundary). -/
def addJsExtAux : Nat → Bool → List Char → List Char
  | _, _, [] => []
  | Nat.succ k, _, c :: rest => addJsExtAux k (isWordChar c) rest
  | 0, prevW, c :: rest =>
    match (if prevW then none else matchFromImport (c :: rest)) with
    | some (emitted, consumed) => emitted ++ addJsExtAux (consumed - 1) (isWordChar c) rest
    | none => c :: addJsExtAux 0 (isWordChar c) rest

/-- Embeds `modifyTranspiledCode` of `compile.ts`: strip `import widgets`
lines, rewrite `widgets` to `globalThis.widgets`, and add `.js` to the
relative import specifiers — in that order, exactly as the three chained
`.replace` calls. -/
def modifyTranspiledCode (code : String) : String :=
  ⟨addJsExtAux 0 false
    (replaceAllAux (("widgets").data) (("globalThis.widgets").data) 0
      (stripImportWidgetsAux false code.data))⟩

/-! ### compile.ts — transpile memo cache and per-file compilation -/

/-- `Map.get`: the process-wide cache is modelled as an association list where
the most recent `set` for a key is first. -/
def jsMapGet (cache : List (String × String)) (k : String) : Option String :=
  (cache.find? (fun e => e.1 == k)).map (fun e => e.2)

/-- `Map.set`: consing, together with first-match lookup, implements
overwriting. -/
def jsMapSet (cache : List (String × String)) (k v : String) : List (String × String) :=
  (k, v) :: cache

/-- Embeds `transpileCode` of `compile.ts`.  `tsTranspileModule` is the
external TypeScript API `ts.transpileModule(...).outputText`.  The source
reads `let code = cache.get(filePath); if (!code) {...}` — `!code` is the
JavaScript falsiness test, true both for `undefined` (key absent) and for the
empty string, which is modelled by testing `(cache.get filePath).getD "" = ""`.
Returns the code together with the updated cache. -/
def transpileCode (tsTranspileModule : String → String) (content filePath : String)
    (cache : List (String × String)) : String × List (String × String) :=
  let cached := (jsMapGet cache filePath).getD ("")
  if cached = ("") then
    let code := modifyTranspiledCode (tsTranspileModule content)
    (code, jsMapSet cache filePath code)
  else
    (cached, cache)

/-- Embeds `compileFile` of `compile.ts` for one source/artifact pair:
when `shouldRecompile` denies, nothing is written (`none`); otherwise the
source is read (absent source makes `fs.readFile` throw), transpiled through
the memo cache, and the artifact content of `writeCompiledFile` is produced. -/
def compileFile (hash tsTranspileModule : String → String) (tsPath : String)
    (ts js : Option (String × Nat)) (cache : List (String × String)) :
    Except String (Option String × List (String × String)) :=
  if shouldRecompile hash ts js then
    match ts with
    | none => Except.error ("Failed to compile")
    | some (content, _) =>
      let r := transpileCode tsTranspileModule content tsPath cache
      Except.ok (some (writeCompiledFileContent hash r.1 content), r.2)
  else Except.ok (none, cache)

/-! ### Helper lemmas for the hash round trip -/

theorem firstLineChars_append_newline (a b : List Char) (h : '\n' ∉ a) :
    firstLineChars (a ++ '\n' :: b) = a := by
  induction a with
  | nil => simp [firstLineChars]
  | cons c rest ih =>
    have hc : c ≠ '\n' := by
      intro he
      exact h (he ▸ List.mem_cons_self c rest)
    have hrest : '\n' ∉ rest := fun hm => h (List.mem_cons_of_mem c hm)
    simp only [firstLineChars, List.cons_append, List.takeWhile_cons]
    have : (c != '\n') = true := by simpa using hc
    rw [this]
    simpa [firstLineChars] using ih hrest

theorem removeFirstOccurrence_prefix (pat rest : List Char) (hne : pat ≠ []) :
    removeFirstOccurrence pat (pat ++ rest) = rest := by
  cases pat with
  | nil => exact absurd rfl hne
  | cons p ps =>
    have hpre : (p :: ps).isPrefixOf (p :: (ps ++ rest)) = true := by
      rw [show p :: (ps ++ rest) = (p :: ps) ++ rest from rfl, List.isPrefixOf_iff_prefix]
      exact List.prefix_append _ _
    simp only [List.cons_append, removeFirstOccurrence, List.append_eq]
    rw [if_pos hpre]
    have hlen : (p :: ps).length = ps.length + 1 := rfl
    rw [hlen, List.drop_succ_cons, List.drop_left]

theorem getExistingHash_write (hash : String → String) (code content : String)
    (h : '\n' ∉ (hash content).data) :
    getExistingHash (writeCompiledFileContent hash code content) = hash content := by
  have hdata : (writeCompiledFileContent hash code content).data =
      (("// ").data ++ (hash content).data) ++ '\n' :: code.data := by
    simp [writeCompiledFileContent, String.data_append]
  have hnl : '\n' ∉ ("// ").data ++ (hash content).data := by
    intro hm
    rcases List.mem_append.mp hm with h1 | h1
    · simp at h1
    · exact h h1
  unfold getExistingHash
  rw [hdata, firstLineChars_append_newline _ _ hnl,
    show ("// ").data ++ (hash content).data = (("// ").data) ++ (hash content).data from rfl,
    removeFirstOccurrence_prefix _ _ (by simp)]

/-- C3: `shouldRecompile` holds exactly when the artifact is absent, its
embedded hash differs from the current source digest, or the source mtime is
later; it is `false` when the source is gone but an artifact remains; and an
up-to-date pair makes `compileFile` write nothing. -/
theorem claim_C3_shouldRecompile :
    (∀ (hash : String → String) (tc : String) (tm : Nat) (js : Option (String × Nat)),
      shouldRecompile hash (some (tc, tm)) js = true ↔
        js = none ∨ ∃ jc jm, js = some (jc, jm) ∧ (getExistingHash jc ≠ hash tc ∨ jm < tm))
    ∧ (∀ (hash : String → String) (jc : String) (jm : Nat),
      shouldRecompile hash none (some (jc, jm)) = false)
    ∧ (∀ (hash tsT : String → String) (tsPath tc : String) (tm : Nat) (jc : String) (jm : Nat)
        (cache : List (String × String)),
      getExistingHash jc = hash tc → tm ≤ jm →
      compileFile hash tsT tsPath (some (tc, tm)) (some (jc, jm)) cache = Except.ok (none, cache)) := by
  refine ⟨?_, ?_, ?_⟩
  · intro hash tc tm js
    cases js with
    | none => simp [shouldRecompile]
    | some p =>
      obtain ⟨jc, jm⟩ := p
      simp only [shouldRecompile, Bool.or_eq_true, bne_iff_ne, decide_eq_true_eq]
      constructor
      · rintro (hne | hlt)
        · exact Or.inr ⟨jc, jm, rfl, Or.inl (Ne.symm hne)⟩
        · exact Or.inr ⟨jc, jm, rfl, Or.inr hlt⟩
      · rintro (hcontra | ⟨jc', jm', heq, hne | hlt⟩)
        · exact absurd hcontra (by simp)
        · cases heq
          exact Or.inl (Ne.symm hne)
        · cases heq
          exact Or.inr hlt
  · intro hash jc jm
    simp [shouldRecompile]
  · intro hash tsT tsPath tc tm jc jm cache hhash hmt
    have hsr : shouldRecompile hash (some (tc, tm)) (some (jc, jm)) = false := by
      simp [shouldRecompile, hhash, Nat.not_lt.mpr hmt]
    simp [compileFile, hsr]

/-- Witness for C3: a concrete up-to-date source/artifact pair (matching
embedded hash, artifact not older than the source) is left alone by
`compileFile`. -/
theorem claim_C3_shouldRecompile_witness :
    compileFile (fun _ => ("h1h2")) (fun s => s) ("/a.ts")
      (some (("x"), 1)) (some (("// h1h2\nx"), 2)) [] = Except.ok (none, []) :=
  claim_C3_shouldRecompile.2.2 (fun _ => ("h1h2")) (fun s => s) ("/a.ts") ("x") 1
    ("// h1h2\nx") 2 [] (by decide) (by decide)

/-- C4: the artifact written for a source is exactly `// <hash>` newline body,
`getExistingHash` recovers exactly that hash, and hence any pair that
`shouldRecompile` accepts is rewritten with an embedded hash equal to the
current content digest. -/
theorem claim_C4_hash_roundtrip :
    ∀ (hash : String → String) (code content : String), '\n' ∉ (hash content).data →
      writeCompiledFileContent hash code content = ("// ") ++ hash content ++ ("\n") ++ code
      ∧ getExistingHash (writeCompiledFileContent hash code content) = hash content
      ∧ (∀ (tsT : String → String) (tsPath : String) (tm : Nat) (js : Option (String × Nat))
          (cache : List (String × String)),
          shouldRecompile hash (some (content, tm)) js = true →
          ∃ art cacheOut,
            compileFile hash tsT tsPath (some (content, tm)) js cache =
              Except.ok (some art, cacheOut)
            ∧ getExistingHash art = hash content) := by
  intro hash code content h
  refine ⟨rfl, getExistingHash_write hash code content h, ?_⟩
  intro tsT tsPath tm js cache hsr
  refine ⟨writeCompiledFileContent hash (transpileCode tsT content tsPath cache).1 content,
    (transpileCode tsT content tsPath cache).2, ?_, getExistingHash_write hash _ content h⟩
  simp [compileFile, hsr]

/-- Witness for C4: round trip at a concrete hash function, code body and
source content. -/
theorem claim_C4_hash_roundtrip_witness :
    getExistingHash (writeCompiledFileContent (fun _ => ("abc123")) ("y") ("x")) = ("abc123") :=
  (claim_C4_hash_roundtrip (fun _ => ("abc123")) ("y") ("x") (by decide)).2.1

/-! ### collectionCompile/+server.ts — the compilation orchestrator -/

/-- The constant `COMPILE_COOLDOWN` (one minute, in milliseconds). -/
def COMPILE_COOLDOWN : Nat := 60000

/-- The module-level compilation state of `collectionCompile/+server.ts`:
`let isCompiling = false; let lastCompileTime = 0`. -/
structure CompileOrchestratorState where
  isCompiling : Bool
  lastCompileTime : Nat
deriving DecidableEq, Repr

/-- Result of a trigger: a `json({success: true, message, timestamp?})`
response, or the `throw error(500, message)` taken on a failed pass. -/
inductive TriggerOutcome where
  | okMsg (message : String) (timestamp : Option Nat)
  | serverError (status : Nat) (message : String)
deriving DecidableEq, Repr

/-- Embeds `handleCompilation`.  The outcomes of the two awaited external
calls — `compile()` and `collectionManager.updateCollections(forceUpdate)` —
are the parameters `compileRes` and `updateRes`; `innerNow` is the `Date.now()`
read inside the function and `last` the module variable `lastCompileTime` at
that moment, so `compile()` runs exactly when
`forceUpdate || Date.now() - lastCompileTime > COMPILE_COOLDOWN`.  Returns the
outcome of the `try` block (errors wrapped as
`Compilation process failed: ...`) together with whether `compile()` was
invoked. -/
def handleCompilation (compileRes updateRes : Except String Unit) (forceUpdate : Bool)
    (innerNow last : Nat) : Except String Unit × Bool :=
  let attempt := forceUpdate || decide (COMPILE_COOLDOWN < innerNow - last)
  let compiled : Except String Unit := if attempt then compileRes else Except.ok ()
  let result : Except String Unit :=
    match compiled with
    | Except.error e => Except.error e
    | Except.ok _ => updateRes
  match result with
  | Except.error e => (Except.error (("Compilation process failed: ") ++ e), attempt)
  | Except.ok _ => (Except.ok (), attempt)

/-- Embeds the `GET` handler of `collectionCompile/+server.ts`.  `force` is
`url.searchParams.get('force') === 'true'`, `now` the handler's `currentTime`
and `innerNow` the later `Date.now()` read inside `handleCompilation`.  The
triple is (response, final module state, instrumentation): the third
component is `none` when `handleCompilation` was never invoked and `some b`
when it was, `b` recording whether `compile()` ran.  JavaScript number
subtraction is modelled by truncated `Nat` subtraction; the difference is
only ever compared against the cooldown, and a negative JS difference and a
truncated zero fall on the same side of both comparisons. -/
def getCompileTrigger (compileRes updateRes : Except String Unit) (force : Bool)
    (now innerNow : Nat) (st : CompileOrchestratorState) :
    TriggerOutcome × CompileOrchestratorState × Option Bool :=
  if st.isCompiling then
    (TriggerOutcome.okMsg ("Compilation already in progress") none, st, none)
  else if !force && decide (now - st.lastCompileTime < COMPILE_COOLDOWN) then
    (TriggerOutcome.okMsg ("Compilation skipped due to cooldown") none, st, none)
  else
    let st1 : CompileOrchestratorState := ⟨true, now⟩
    match handleCompilation compileRes updateRes force innerNow st1.lastCompileTime with
    | (Except.ok _, ran) =>
      (TriggerOutcome.okMsg ("Compilation and collection update completed") (some now),
        ⟨false, st1.lastCompileTime⟩, some ran)
    | (Except.error e, ran) =>
      (TriggerOutcome.serverError 500 e, ⟨false, st1.lastCompileTime⟩, some ran)

/-- Embeds the `POST` handler of `collectionCompile/+server.ts` (forced
compilation; no cooldown gate). -/
def postCompileTrigger (compileRes updateRes : Except String Unit)
    (now innerNow : Nat) (st : CompileOrchestratorState) :
    TriggerOutcome × CompileOrchestratorState × Option Bool :=
  if st.isCompiling then
    (TriggerOutcome.okMsg ("Compilation already in progress") none, st, none)
  else
    let st1 : CompileOrchestratorState := ⟨true, now⟩
    match handleCompilation compileRes updateRes true innerNow st1.lastCompileTime with
    | (Except.ok _, ran) =>
      (TriggerOutcome.okMsg ("Forced compilation and collection update completed") (some now),
        ⟨false, st1.lastCompileTime⟩, some ran)
    | (Except.error e, ran) =>
      (TriggerOutcome.serverError 500 e, ⟨false, st1.lastCompileTime⟩, some ran)

/-- C1: while `isCompiling` is set, both triggers answer "already in
progress" without invoking `handleCompilation` or changing state; and from a
released gate every trigger — forced or not, succeeding or throwing —
finishes with `isCompiling = false`, so the gate is never left held. -/
theorem claim_C1_single_flight :
    ∀ (compileRes updateRes : Except String Unit) (force : Bool) (now innerNow : Nat)
      (st : CompileOrchestratorState),
      (st.isCompiling = true →
        getCompileTrigger compileRes updateRes force now innerNow st =
          (TriggerOutcome.okMsg ("Compilation already in progress") none, st, none)
        ∧ postCompileTrigger compileRes updateRes now innerNow st =
          (TriggerOutcome.okMsg ("Compilation already in progress") none, st, none))
      ∧ (st.isCompiling = false →
        (getCompileTrigger compileRes updateRes force now innerNow st).2.1.isCompiling = false
        ∧ (postCompileTrigger compileRes updateRes now innerNow st).2.1.isCompiling = false) := by
  intro compileRes updateRes force now innerNow st
  constructor
  · intro h
    constructor <;> simp [getCompileTrigger, postCompileTrigger, h]
  · intro h
    constructor
    · unfold getCompileTrigger
      rw [h]
      simp only [Bool.false_eq_true, if_false]
      split
      · exact h
      · split <;> rfl
    · unfold postCompileTrigger
      rw [h]
      simp only [Bool.false_eq_true, if_false]
      split <;> rfl

/-- Witness for C1: concrete held-gate and released-gate triggers. -/
theorem claim_C1_single_flight_witness :
    (getCompileTrigger (Except.ok ()) (Except.ok ()) false 5 5 ⟨true, 0⟩ =
        (TriggerOutcome.okMsg ("Compilation already in progress") none, ⟨true, 0⟩, none)
      ∧ postCompileTrigger (Except.ok ()) (Except.ok ()) 5 5 ⟨true, 0⟩ =
        (TriggerOutcome.okMsg ("Compilation already in progress") none, ⟨true, 0⟩, none))
    ∧ ((getCompileTrigger (Except.error ("boom")) (Except.ok ()) true 5 5
          ⟨false, 0⟩).2.1.isCompiling = false
      ∧ (postCompileTrigger (Except.error ("boom")) (Except.ok ()) 5 5
          ⟨false, 0⟩).2.1.isCompiling = false) :=
  ⟨(claim_C1_single_flight (Except.ok ()) (Except.ok ()) false 5 5 ⟨true, 0⟩).1 rfl,
   (claim_C1_single_flight (Except.error ("boom")) (Except.ok ()) true 5 5 ⟨false, 0⟩).2 rfl⟩

/-- C2 (code bug): with the cooldown long elapsed (`lastCompileTime = 0`,
trigger at `t = 1000000` ms) a non-forced GET passes the cooldown gate and
sets both state fields, yet `handleCompilation` re-checks the cooldown
against the just-updated `lastCompileTime` and therefore never calls
`compile()`: the instrumentation component is `some false` — only
`updateCollections(false)` ran, while the response still reports a completed
compilation. -/
theorem claim_C2_compile_phase_skipped :
    COMPILE_COOLDOWN < 1000000 - (0 : Nat)
    ∧ getCompileTrigger (Except.ok ()) (Except.ok ()) false 1000000 1000000 ⟨false, 0⟩ =
      (TriggerOutcome.okMsg ("Compilation and collection update completed") (some 1000000),
        ⟨false, 1000000⟩, some false) :=
  ⟨by decide, by decide⟩

/-- C9: a non-forced trigger inside the cooldown window answers
"skipped due to cooldown" and leaves the state — in particular
`lastCompileTime` — untouched. -/
theorem claim_C9_cooldown_skip :
    ∀ (compileRes updateRes : Except String Unit) (now innerNow : Nat)
      (st : CompileOrchestratorState),
      st.isCompiling = false → now - st.lastCompileTime < COMPILE_COOLDOWN →
      getCompileTrigger compileRes updateRes false now innerNow st =
        (TriggerOutcome.okMsg ("Compilation skipped due to cooldown") none, st, none) := by
  intro compileRes updateRes now innerNow st h1 h2
  simp [getCompileTrigger, h1, h2]

/-- Witness for C9: a concrete trigger 500 ms after the previous pass is
skipped with the state unchanged. -/
theorem claim_C9_cooldown_skip_witness :
    getCompileTrigger (Except.ok ()) (Except.ok ()) false 1000 1000 ⟨false, 500⟩ =
      (TriggerOutcome.okMsg ("Compilation skipped due to cooldown") none, ⟨false, 500⟩, none) :=
  claim_C9_cooldown_skip (Except.ok ()) (Except.ok ()) 1000 1000 ⟨false, 500⟩ rfl (by decide)

/-- C7 (amended): the transpile memo is keyed by path alone — for a path not
yet cached, calling `transpileCode` with `c1` and then with different content
`c2` returns the transform of `c1` both times, provided that transform is not
the empty string.  (The `!code` falsiness test makes an empty cached string
look like a miss, which is what the counterexample exhibits.) -/
theorem claim_C7_transpile_memo :
    ∀ (tsT : String → String) (p c1 c2 : String) (cache : List (String × String)),
      c1 ≠ c2 →
      jsMapGet cache p = none →
      modifyTranspiledCode (tsT c1) ≠ ("") →
      (transpileCode tsT c1 p cache).1 = modifyTranspiledCode (tsT c1)
      ∧ (transpileCode tsT c2 p (transpileCode tsT c1 p cache).2).1 =
          (transpileCode tsT c1 p cache).1 := by
  intro tsT p c1 c2 cache hne hmiss hnonempty
  have h1 : transpileCode tsT c1 p cache =
      (modifyTranspiledCode (tsT c1), jsMapSet cache p (modifyTranspiledCode (tsT c1))) := by
    simp [transpileCode, hmiss]
  have hget : jsMapGet (jsMapSet cache p (modifyTranspiledCode (tsT c1))) p =
      some (modifyTranspiledCode (tsT c1)) := by
    simp [jsMapGet, jsMapSet]
  refine ⟨by rw [h1], ?_⟩
  rw [h1]
  simp [transpileCode, hget, hnonempty]

/-- Witness for C7: a fresh path with non-empty transforms; the second call
returns the memoized transform of the first content. -/
theorem claim_C7_transpile_memo_witness :
    (transpileCode (fun s => s) ("a") ("/a.ts") []).1 = modifyTranspiledCode ("a")
    ∧ (transpileCode (fun s => s) ("b") ("/a.ts")
        (transpileCode (fun s => s) ("a") ("/a.ts") []).2).1 =
      (transpileCode (fun s => s) ("a") ("/a.ts") []).1 :=
  claim_C7_transpile_memo (fun s => s) ("/a.ts") ("a") ("b") [] (by decide) rfl (by decide)

/-- Counterexample to C7 as stated: on a fresh path, content `""` transpiles
to the empty string, which the JavaScript `!code` test treats as a cache
miss, so the second call with content `"1"` re-transpiles and returns `"1"`
instead of the memoized transform of the first content. -/
theorem claim_C7_transpile_memo_counterexample :
    (("") : String) ≠ ("1")
    ∧ (transpileCode (fun s => s) ("") ("/a.ts") []).1 = ("")
    ∧ (transpileCode (fun s => s) ("1") ("/a.ts")
        (transpileCode (fun s => s) ("") ("/a.ts") []).2).1 = ("1")
    ∧ (("1") : String) ≠ ("") :=
  ⟨by decide, by decide, by decide, by decide⟩

/-! ### collections/+server.ts — `safeParseCollectionFile`

`JSON.parse` is a JavaScript builtin; it is embedded below as a standard
recursive-descent JSON parser.  Numbers keep their source lexeme (nothing in
the verified code inspects numeric values, which avoids modelling floating
point); a structural fuel argument bounds the recursion, decremented only
after at least one character has been consumed, and the top-level entry point
supplies more fuel than the input length. -/

/-- JSON values as produced by `JSON.parse`. -/
inductive Json where
  | null
  | boolean (b : Bool)
  | number (lexeme : String)
  | str (s : String)
  | arr (elems : List Json)
  | obj (fields : List (String × Json))

/-- JSON insignificant whitespace (space, tab, line feed, carriage return). -/
def skipJsonWs : List Char → List Char
  | [] => []
  | c :: rest => if c = ' ' || c = '\t' || c = '\n' || c = '\r' then skipJsonWs rest else c :: rest

/-- Value of a hexadecimal digit, for `\u` escapes. -/
def parseHexDigit (c : Char) : Option Nat :=
  if c.isDigit then some (c.toNat - 48)
  else if 'a' ≤ c && c ≤ 'f' then some (c.toNat - 87)
  else if 'A' ≤ c && c ≤ 'F' then some (c.toNat - 55)
  else none

/-- Single-character JSON string escapes. -/
def jsonEscapeChar (e : Char) : Option Char :=
  if e = '\"' then some '\"'
  else if e = '\\' then some '\\'
  else if e = '/' then some '/'
  else if e = 'b' then some (Char.ofNat 8)
  else if e = 'f' then some (Char.ofNat 12)
  else if e = 'n' then some '\n'
  else if e = 'r' then some '\r'
  else if e = 't' then some '\t'
  else none

/-- Body of a JSON string after the opening quote: returns the decoded
characters and the input after the closing quote.  Raw control characters
below `0x20` are rejected, as `JSON.parse` does. -/
def parseStringBody : List Char → Option (List Char × List Char)
  | [] => none
  | '\"' :: rest => some ([], rest)
  | '\\' :: e :: rest2 =>
    if e = 'u' then
      match rest2 with
      | h1 :: h2 :: h3 :: h4 :: rest3 =>
        match parseHexDigit h1, parseHexDigit h2, parseHexDigit h3, parseHexDigit h4 with
        | some a, some b, some c, some d =>
          (parseStringBody rest3).map
            (fun p => (Char.ofNat (((a * 16 + b) * 16 + c) * 16 + d) :: p.1, p.2))
        | _, _, _, _ => none
      | _ => none
    else
      match jsonEscapeChar e with
      | some ch => (parseStringBody rest2).map (fun p => (ch :: p.1, p.2))
      | none => none
  | '\\' :: [] => none
  | c :: rest =>
    if c.toNat < 32 then none
    else (parseStringBody rest).map (fun p => (c :: p.1, p.2))

/-- A JSON number lexeme `-?int frac? exp?`.  An ill-formed fraction or
exponent makes the lexeme stop early, leaving a character (`.` or `e`) that
no JSON production accepts, so the surrounding parse fails exactly where
`JSON.parse` would. -/
def parseJsonNumber (l : List Char) : Option (List Char × List Char) :=
  let signSplit : List Char × List Char :=
    match l with
    | '-' :: r => (['-'], r)
    | _ => ([], l)
  match signSplit.2 with
  | [] => none
  | c :: rest =>
    if c.isDigit then
      let intSplit : List Char × List Char :=
        if c = '0' then ([c], rest)
        else (c :: rest.takeWhile Char.isDigit, rest.dropWhile Char.isDigit)
      let fracSplit : List Char × List Char :=
        match intSplit.2 with
        | '.' :: fr =>
          if (fr.takeWhile Char.isDigit).length = 0 then ([], intSplit.2)
          else ('.' :: fr.takeWhile Char.isDigit, fr.dropWhile Char.isDigit)
        | _ => ([], intSplit.2)
      let expSplit : List Char × List Char :=
        match fracSplit.2 with
        | e :: sr =>
          if e = 'e' || e = 'E' then
            let sgnSplit : List Char × List Char :=
              match sr with
              | s :: dr2 => if s = '+' || s = '-' then ([s], dr2) else ([], sr)
              | [] => ([], sr)
            if (sgnSplit.2.takeWhile Char.isDigit).length = 0 then ([], fracSplit.2)
            else (e :: (sgnSplit.1 ++ sgnSplit.2.takeWhile Char.isDigit),
                  sgnSplit.2.dropWhile Char.isDigit)
          else ([], fracSplit.2)
        | [] => ([], fracSplit.2)
      some (signSplit.1 ++ intSplit.1 ++ fracSplit.1 ++ expSplit.1, expSplit.2)
    else none

mutual

/-- JSON value parser (fuel-bounded recursive descent). -/
def parseJsonValue : Nat → List Char → Option (Json × List Char)
  | 0, _ => none
  | fuel + 1, l =>
    match skipJsonWs l with
    | [] => none
    | c :: rest =>
      if c = '{' then
        match skipJsonWs rest with
        | '}' :: r2 => some (Json.obj [], r2)
        | r2 => parseJsonMembers fuel r2 []
      else if c = '[' then
        match skipJsonWs rest with
        | ']' :: r2 => some (Json.arr [], r2)
        | r2 => parseJsonElems fuel r2 []
      else if c = '\"' then
        match parseStringBody rest with
        | some (s, r2) => some (Json.str ⟨s⟩, r2)
        | none => none
      else if c = 't' then
        if (("rue").data).isPrefixOf rest then some (Json.boolean true, rest.drop 3) else none
      else if c = 'f' then
        if (("alse").data).isPrefixOf rest then some (Json.boolean false, rest.drop 4) else none
      else if c = 'n' then
        if (("ull").data).isPrefixOf rest then some (Json.null, rest.drop 3) else none
      else
        match parseJsonNumber (c :: rest) with
        | some (lex, r2) => some (Json.number ⟨lex⟩, r2)
        | none => none

/-- Members of a JSON object after `{` (at least one member present). -/
def parseJsonMembers : Nat → List Char → List (String × Json) → Option (Json × List Char)
  | 0, _, _ => none
  | fuel + 1, l, acc =>
    match skipJsonWs l with
    | '\"' :: r1 =>
      match parseStringBody r1 with
      | some (key, r2) =>
        match skipJsonWs r2 with
        | ':' :: r3 =>
          match parseJsonValue fuel r3 with
          | some (v, r4) =>
            match skipJsonWs r4 with
            | ',' :: r5 => parseJsonMembers fuel r5 (acc ++ [(⟨key⟩, v)])
            | '}' :: r5 => some (Json.obj (acc ++ [(⟨key⟩, v)]), r5)
            | _ => none
          | none => none
        | _ => none
      | none => none
    | _ => none

/-- Elements of a JSON array after `[` (at least one element present). -/
def parseJsonElems : Nat → List Char → List Json → Option (Json × List Char)
  | 0, _, _ => none
  | fuel + 1, l, acc =>
    match parseJsonValue fuel l with
    | some (v, r1) =>
      match skipJsonWs r1 with
      | ',' :: r2 => parseJsonElems fuel r2 (acc ++ [v])
      | ']' :: r2 => some (Json.arr (acc ++ [v]), r2)
      | _ => none
    | none => none

end

/-- `JSON.parse`: a complete value followed only by whitespace. -/
def jsonParse (s : String) : Option Json :=
  match parseJsonValue (s.data.length + 1) s.data with
  | some (v, rest) => if skipJsonWs rest = [] then some v else none
  | none => none

/-- Embeds a whole-word global replacement such as
`content.replace(/\bfunction\b/g, '"function"')`: the word must be preceded
and followed by a non-word character (or the string's ends).  The `Nat`
argument counts source characters still to skip from the current match, the
`Bool` argument whether the previous source character is a word character. -/
def replaceWholeWordAux (w repl : List Char) : Nat → Bool → List Char → List Char
  | _, _, [] => []
  | Nat.succ k, _, c :: rest => replaceWholeWordAux w repl k (isWordChar c) rest
  | 0, prevW, c :: rest =>
    if !prevW && w.isPrefixOf (c :: rest)
        && (match (c :: rest).drop w.length with
            | [] => true
            | d :: _ => !isWordChar d) then
      repl ++ replaceWholeWordAux w repl (w.length - 1) (isWordChar c) rest
    else
      c :: replaceWholeWordAux w repl 0 (isWordChar c) rest

/-- String-level wrapper for `replaceWholeWordAux`, starting at a word
boundary (string start). -/
def replaceWholeWord (w repl s : String) : String :=
  ⟨replaceWholeWordAux w.data repl.data 0 false s.data⟩

/-- The four chained sanitizing replacements of `safeParseCollectionFile`, in
source order: `function`, `eval`, `new`, `class`, each replaced by its
double-quoted form. -/
def sanitizedContent (content : String) : String :=
  replaceWholeWord ("class") ("\"class\"")
    (replaceWholeWord ("new") ("\"new\"")
      (replaceWholeWord ("eval") ("\"eval\"")
        (replaceWholeWord ("function") ("\"function\"") content)))

/-- JavaScript `typeof parsed === 'object' && parsed !== null`: objects and
arrays pass (`typeof` of an array is `'object'`), `null` and primitives do
not. -/
def isJsObjectTypeNonNull : Json → Bool
  | Json.obj _ => true
  | Json.arr _ => true
  | _ => false

/-- Embeds `safeParseCollectionFile`: sanitize, `JSON.parse`, require a
non-null object; the `Except.ok` payload is the `parsed` of the returned
`{default: parsed}`, and everything else throws
`Invalid collection file format` (the inner structure error is caught and
rewrapped by the function's own `catch`). -/
def safeParseCollectionFile (content : String) : Except String Json :=
  match jsonParse (sanitizedContent content) with
  | some parsed =>
    if isJsObjectTypeNonNull parsed then Except.ok parsed
    else Except.error ("Invalid collection file format")
  | none => Except.error ("Invalid collection file format")

theorem replaceWholeWordAux_nonmatch_cons (w repl : List Char) (b : Bool) (c : Char)
    (l : List Char) (h : w.isPrefixOf (c :: l) = false) :
    replaceWholeWordAux w repl 0 b (c :: l) = c :: replaceWholeWordAux w repl 0 (isWordChar c) l := by
  simp [replaceWholeWordAux, h]

theorem isPrefixOf_cons_false (hd : Char) (tl : List Char) (c : Char) (l : List Char)
    (h : hd ≠ c) : (hd :: tl).isPrefixOf (c :: l) = false := by
  simp [List.isPrefixOf, h]

theorem replaceWholeWordAux_slash2 (hd : Char) (tl repl : List Char) (hh : hd ≠ '/')
    (l : List Char) :
    replaceWholeWordAux (hd :: tl) repl 0 false ('/' :: '/' :: l) =
      '/' :: '/' :: replaceWholeWordAux (hd :: tl) repl 0 false l := by
  have h1 := isPrefixOf_cons_false hd tl '/' ('/' :: l) hh
  have h2 := isPrefixOf_cons_false hd tl '/' l hh
  rw [replaceWholeWordAux_nonmatch_cons _ _ _ _ _ h1]
  have hw : isWordChar '/' = false := rfl
  rw [hw, replaceWholeWordAux_nonmatch_cons _ _ _ _ _ h2, hw]

theorem sanitizedContent_slash2 (s : String) :
    ∃ r, sanitizedContent (("//") ++ s) = ⟨'/' :: '/' :: r⟩ := by
  have hdata : ((("//") : String) ++ s).data = '/' :: '/' :: s.data := by
    rw [String.data_append]
    rfl
  unfold sanitizedContent replaceWholeWord
  rw [hdata]
  rw [replaceWholeWordAux_slash2 'f' _ _ (by decide) _]
  rw [show (String.mk ('/' :: '/' :: replaceWholeWordAux (("function").data)
      (("\"function\"").data) 0 false s.data)).data =
      '/' :: '/' :: replaceWholeWordAux (("function").data) (("\"function\"").data) 0 false s.data
    from rfl]
  rw [replaceWholeWordAux_slash2 'e' _ _ (by decide) _]
  rw [show (String.mk ('/' :: '/' :: replaceWholeWordAux (("eval").data) (("\"eval\"").data) 0
      false (replaceWholeWordAux (("function").data) (("\"function\"").data) 0 false s.data))).data
      = '/' :: '/' :: replaceWholeWordAux (("eval").data) (("\"eval\"").data) 0 false
        (replaceWholeWordAux (("function").data) (("\"function\"").data) 0 false s.data)
    from rfl]
  rw [replaceWholeWordAux_slash2 'n' _ _ (by decide) _]
  rw [show (String.mk ('/' :: '/' :: replaceWholeWordAux (("new").data) (("\"new\"").data) 0 false
      (replaceWholeWordAux (("eval").data) (("\"eval\"").data) 0 false
        (replaceWholeWordAux (("function").data) (("\"function\"").data) 0 false s.data)))).data
      = '/' :: '/' :: replaceWholeWordAux (("new").data) (("\"new\"").data) 0 false
        (replaceWholeWordAux (("eval").data) (("\"eval\"").data) 0 false
          (replaceWholeWordAux (("function").data) (("\"function\"").data) 0 false s.data))
    from rfl]
  rw [replaceWholeWordAux_slash2 'c' _ _ (by decide) _]
  exact ⟨_, rfl⟩

theorem jsonParse_slash_head (l : List Char) : jsonParse ⟨'/' :: l⟩ = none := by
  unfold jsonParse
  rw [show (String.mk ('/' :: l)).data = '/' :: l from rfl]
  rw [show ('/' :: l).length + 1 = (l.length + 1) + 1 from by simp]
  rw [show parseJsonValue (l.length + 1 + 1) ('/' :: l) =
      (match skipJsonWs ('/' :: l) with
      | [] => none
      | c :: rest =>
        if c = '{' then
          match skipJsonWs rest with
          | '}' :: r2 => some (Json.obj [], r2)
          | r2 => parseJsonMembers (l.length + 1) r2 []
        else if c = '[' then
          match skipJsonWs rest with
          | ']' :: r2 => some (Json.arr [], r2)
          | r2 => parseJsonElems (l.length + 1) r2 []
        else if c = '\"' then
          match parseStringBody rest with
          | some (s, r2) => some (Json.str ⟨s⟩, r2)
          | none => none
        else if c = 't' then
          if (("rue").data).isPrefixOf rest then some (Json.boolean true, rest.drop 3) else none
        else if c = 'f' then
          if (("alse").data).isPrefixOf rest then some (Json.boolean false, rest.drop 4) else none
        else if c = 'n' then
          if (("ull").data).isPrefixOf rest then some (Json.null, rest.drop 3) else none
        else
          match parseJsonNumber (c :: rest) with
          | some (lex, r2) => some (Json.number ⟨lex⟩, r2)
          | none => none)
    from rfl]
  rw [show skipJsonWs ('/' :: l) = '/' :: l from by simp [skipJsonWs]]
  simp [parseJsonNumber]

/-- C10: `safeParseCollectionFile` succeeds with `{default: parsed}` exactly
when the sanitized text parses as JSON to a value of JavaScript type
`'object'` other than `null`; every other content — in particular anything
beginning with the `//` comment prefix of the compiler's own artifacts — is
rejected with `Invalid collection file format`. -/
theorem claim_C10_safe_parse_gate :
    (∀ (content : String) (v : Json),
      safeParseCollectionFile content = Except.ok v ↔
        jsonParse (sanitizedContent content) = some v ∧ isJsObjectTypeNonNull v = true)
    ∧ (∀ (s : String),
      safeParseCollectionFile (("//") ++ s) = Except.error ("Invalid collection file format")) := by
  constructor
  · intro content v
    unfold safeParseCollectionFile
    cases hp : jsonParse (sanitizedContent content) with
    | none => simp
    | some parsed =>
      cases hobj : isJsObjectTypeNonNull parsed with
      | false =>
        simp only [hobj, if_false, Bool.false_eq_true]
        constructor
        · intro hcontra
          exact absurd hcontra (by simp)
        · rintro ⟨hv, ho⟩
          cases hv
          rw [hobj] at ho
          exact absurd ho (by simp)
      | true =>
        simp only [hobj, if_true]
        constructor
        · intro hok
          cases hok
          exact ⟨rfl, hobj⟩
        · rintro ⟨hv, _⟩
          cases hv
          rfl
  · intro s
    obtain ⟨r, hr⟩ := sanitizedContent_slash2 s
    unfold safeParseCollectionFile
    rw [hr, jsonParse_slash_head]

/-- Witness for C10: a concrete compiled-artifact content (hash comment line
followed by module code) is rejected. -/
theorem claim_C10_safe_parse_gate_witness :
    safeParseCollectionFile (("//") ++ (" abc\nexport default 1")) =
      Except.error ("Invalid collection file format") :=
  claim_C10_safe_parse_gate.2 (" abc\nexport default 1")

/-! ### Registry data and the collections read endpoint

`collectionManager.getCollectionData()` comes from
`@src/collections/CollectionManager`, which is not part of the source set;
the shapes below follow spec §3 (descriptors carry name, icon, path and a
permissions map keyed by role; categories form a tree with ids and optional
nested subcategories).  Only `name`, `icon` and `path` are read by the
endpoints verified here. -/

/-- A collection descriptor held by the registry. -/
structure Collection where
  name : String
  icon : String
  path : String
  permissions : List (String × Bool)
deriving DecidableEq, Repr

mutual

/-- A category node: `{id, name, icon, subcategories?}`.  An absent
`subcategories` property and an empty record behave identically in every
operation verified here (both end recursion), so both are modelled by the
empty forest. -/
inductive CatTree where
  | node (id : Nat) (name : String) (icon : String) (subcategories : CatForest)

/-- An ordered record of named category nodes (JavaScript objects enumerate
string keys in insertion order). -/
inductive CatForest where
  | nil
  | fcons (key : String) (t : CatTree) (rest : CatForest)

end

/-- The id of a category node (`cats[key].id`). -/
def CatTree.catId : CatTree → Nat
  | CatTree.node i _ _ _ => i

/-- Response payloads of the collections `GET` switch, one per action. -/
inductive Payload where
  | structureData (collections : List Collection) (categories : CatForest)
  | filesData (entries : List Json)
  | fileData (entry : Json)
  | namesData (names : List String)
  | collectionData (c : Collection)
  | basicData (entries : List (String × String × String))

/-- Everything a `try` block here can catch: a SvelteKit `HttpError` thrown
via `error(status, message)`, or a JavaScript `Error` (file-system or parse
failure). -/
inductive Thrown where
  | http (status : Nat) (message : String)
  | jsError (message : String)

/-- The `err instanceof Error ? err.message : String(err)` of the catch
blocks.  SvelteKit's `HttpError` does not extend `Error`, so it takes the
`String(err)` branch, which calls its `toString` —
`JSON.stringify(this.body)`, i.e. `\x7b"message":"..."\x7d` (modelled for
messages without characters that `JSON.stringify` escapes, which covers
every message thrown in these handlers). -/
def thrownMessage : Thrown → String
  | Thrown.http _ m => ("\x7b\"message\":\"") ++ m ++ ("\"\x7d")
  | Thrown.jsError m => m

/-- A response reaching the client: a `json(...)` body or a framework fault
produced by an uncaught `throw error(status, message)`. -/
inductive ApiResponse where
  | ok (body : Payload)
  | fault (status : Nat) (message : String)

/-- `path.basename` restricted to what the endpoint needs: the segment after
the last `/`.  (Trailing-slash normalization of Node's `basename` is not
modelled; no verified claim depends on it.) -/
def jsPathBasename (p : String) : String :=
  ⟨(p.data.reverse.takeWhile (fun c => c != '/')).reverse⟩

/-- Directory lookup: the collections folder is modelled as a listing of
(file name, content) pairs; `none` means `fs.readFile` rejects. -/
def lookupFile (dirFiles : List (String × String)) (fn : String) : Option String :=
  (dirFiles.find? (fun e => e.1 == fn)).map (fun e => e.2)

/-- Embeds `processBatch`/the `files` action body: every `.js` file is read
and parsed; any rejection rejects the whole batch.  Splitting into batches of
`BATCH_SIZE` and flattening preserves this order and this failure behaviour,
so the batching is modelled as one order-preserving traversal. -/
def processAllFiles : List (String × String) → Except String (List Json)
  | [] => Except.ok []
  | (_, content) :: rest =>
    match safeParseCollectionFile content with
    | Except.error e => Except.error e
    | Except.ok v =>
      match processAllFiles rest with
      | Except.error e => Except.error e
      | Except.ok vs => Except.ok (v :: vs)

/-- Embeds the `switch (action)` of the collections `GET` inside its `try`:
the produced payload, or whatever the block throws. -/
def collectionsSwitch (action name : Option String) (colls : List Collection)
    (cats : CatForest) (dirFiles : List (String × String)) :
    Except Thrown Payload :=
  if action = some ("structure") then
    Except.ok (Payload.structureData colls cats)
  else if action = some ("files") then
    match processAllFiles (dirFiles.filter (fun e => e.1.endsWith (".js"))) with
    | Except.ok entries => Except.ok (Payload.filesData entries)
    | Except.error e => Except.error (Thrown.jsError e)
  else if action = some ("file") then
    if (name.getD ("")) = ("") then Except.error (Thrown.http 400 ("File name required"))
    else
      let fileName := jsPathBasename (name.getD (""))
      if fileName = ("..") then Except.error (Thrown.http 400 ("Invalid file path"))
      else
        match lookupFile dirFiles fileName with
        | none =>
          Except.error (Thrown.jsError (("ENOENT: no such file or directory, open ") ++ fileName))
        | some content =>
          match safeParseCollectionFile content with
          | Except.ok v => Except.ok (Payload.fileData v)
          | Except.error e => Except.error (Thrown.jsError e)
  else if action = some ("names") then
    Except.ok (Payload.namesData (colls.map (fun c => c.name)))
  else if action = some ("collection") then
    if (name.getD ("")) = ("") then
      Except.error (Thrown.http 400 ("Collection name is required"))
    else
      match colls.find? (fun c => c.name == (name.getD (""))) with
      | none => Except.error (Thrown.http 404 ("Collection not found"))
      | some c => Except.ok (Payload.collectionData c)
  else
    Except.ok (Payload.basicData (colls.map (fun c => (c.name, c.icon, c.path))))

/-- Embeds the collections `GET` handler (`browser` is `false` on the
server).  Modelled from the spec: `getCache`/`setCache` come from
`@src/databases/redis`, which is not in the source set; per spec §4.5/§7 the
distributed tier is optional and "cache-tier failures never fail the
surrounding request", so a failed `getCache` round-trip behaves as a miss —
its outcome is the parameter `cached : Option Payload`, with `none` covering
disabled-tier, miss and failure alike — and `setCache` is total with no
observable effect on the response.  Everything thrown inside the `try` is
converted by the catch-all into a 500 fault wrapping the extracted message. -/
def collectionsGET (redisEnabled : Bool) (cached : Option Payload) (action name : Option String)
    (colls : List Collection) (cats : CatForest)
    (dirFiles : List (String × String)) : ApiResponse :=
  if redisEnabled then
    match cached with
    | some payload => ApiResponse.ok payload
    | none =>
      match collectionsSwitch action name colls cats dirFiles with
      | Except.ok response => ApiResponse.ok response
      | Except.error t =>
        ApiResponse.fault 500 (("Failed to process collections request: ") ++ thrownMessage t)
  else
    match collectionsSwitch action name colls cats dirFiles with
    | Except.ok response => ApiResponse.ok response
    | Except.error t =>
      ApiResponse.fault 500 (("Failed to process collections request: ") ++ thrownMessage t)

/-- Counterexample to C5 as stated: with the `collection` action, the missing
name is thrown as a 400 and the unknown name as a 404 inside the `try`, but
the handler's catch-all rethrows `error(500, ...)`, so the client actually
receives a 500 fault in both cases — not a 400-class or 404-class one. -/
theorem claim_C5_collection_counterexample :
    collectionsGET false none (some ("collection")) none
        [⟨("A"), ("i"), ("/a"), []⟩] CatForest.nil [] =
      ApiResponse.fault 500 (("Failed to process collections request: ")
        ++ ("\x7b\"message\":\"Collection name is required\"\x7d"))
    ∧ collectionsGET false none (some ("collection")) (some ("B"))
        [⟨("A"), ("i"), ("/a"), []⟩] CatForest.nil [] =
      ApiResponse.fault 500 (("Failed to process collections request: ")
        ++ ("\x7b\"message\":\"Collection not found\"\x7d")) :=
  ⟨rfl, rfl⟩

/-- C5 (amended): with no distributed-cache hit, the `collection` action
answers: missing or empty name — a 500 fault wrapping the original
`Collection name is required` client-fault message (the catch-all converts
the thrown 400); unknown name — a 500 fault wrapping `Collection not found`
(a converted 404); existing name — exactly the stored descriptor. -/
theorem claim_C5_collection_action :
    ∀ (re : Bool) (name : Option String) (colls : List Collection)
      (cats : CatForest) (dirFiles : List (String × String)),
      ((name.getD ("")) = ("") →
        collectionsGET re none (some ("collection")) name colls cats dirFiles =
          ApiResponse.fault 500 (("Failed to process collections request: ")
            ++ ("\x7b\"message\":\"Collection name is required\"\x7d")))
      ∧ (∀ n, name = some n → n ≠ ("") →
          colls.find? (fun c => c.name == n) = none →
          collectionsGET re none (some ("collection")) name colls cats dirFiles =
            ApiResponse.fault 500 (("Failed to process collections request: ")
              ++ ("\x7b\"message\":\"Collection not found\"\x7d")))
      ∧ (∀ n c, name = some n → n ≠ ("") →
          colls.find? (fun c2 => c2.name == n) = some c →
          collectionsGET re none (some ("collection")) name colls cats dirFiles =
            ApiResponse.ok (Payload.collectionData c)) := by
  intro re name colls cats dirFiles
  refine ⟨?_, ?_, ?_⟩
  · intro h
    cases re <;> simp [collectionsGET, collectionsSwitch, h, thrownMessage]
  · intro n hn hne hfind
    cases hn
    have hgetd : (Option.getD (some n) ("")) = n := rfl
    cases re <;>
      simp [collectionsGET, collectionsSwitch, hgetd, hne, hfind, thrownMessage]
  · intro n c hn hne hfind
    cases hn
    have hgetd : (Option.getD (some n) ("")) = n := rfl
    cases re <;> simp [collectionsGET, collectionsSwitch, hgetd, hne, hfind]

/-- Witness for C5 (amended): a stored descriptor is returned verbatim for
its own name. -/
theorem claim_C5_collection_action_witness :
    collectionsGET false none (some ("collection")) (some ("A"))
        [⟨("A"), ("i"), ("/a"), []⟩] CatForest.nil [] =
      ApiResponse.ok (Payload.collectionData ⟨("A"), ("i"), ("/a"), []⟩) :=
  (claim_C5_collection_action false (some ("A")) [⟨("A"), ("i"), ("/a"), []⟩] CatForest.nil []).2.2
    ("A") ⟨("A"), ("i"), ("/a"), []⟩ rfl (by decide) rfl

/-- C6: with the distributed tier disabled, or enabled but yielding no cached
payload (a miss or an absorbed round-trip failure), every read computes the
same response fresh from the registry — a cache-tier failure never changes,
let alone fails, the response — and registry-backed actions succeed. -/
theorem claim_C6_cache_degradation :
    ∀ (re : Bool) (action name : Option String) (colls : List Collection)
      (cats : CatForest) (dirFiles : List (String × String)),
      collectionsGET re none action name colls cats dirFiles =
        collectionsGET false none action name colls cats dirFiles
      ∧ collectionsGET re none (some ("structure")) name colls cats dirFiles =
          ApiResponse.ok (Payload.structureData colls cats)
      ∧ collectionsGET re none none name colls cats dirFiles =
          ApiResponse.ok (Payload.basicData (colls.map (fun c => (c.name, c.icon, c.path)))) := by
  intro re action name colls cats dirFiles
  refine ⟨?_, ?_, ?_⟩
  · cases re <;> rfl
  · cases re <;> simp [collectionsGET, collectionsSwitch]
  · cases re <;> simp [collectionsGET, collectionsSwitch]

/-! ### categories/+server.ts — `PUT` (partial update of one tree node) -/

/-- The request's `updates` object: `Object.assign` only overwrites the
properties that are present. -/
structure CategoryUpdates where
  id : Option Nat
  name : Option String
  icon : Option String
  subcategories : Option (CatForest)

/-- `Object.assign(cats[key], updates)`: present update properties replace
the node's, absent ones leave them. -/
def applyCategoryUpdates (t : CatTree) (u : CategoryUpdates) : CatTree :=
  match t with
  | CatTree.node i n ic subs =>
    CatTree.node (u.id.getD i) (u.name.getD n) (u.icon.getD ic) (u.subcategories.getD subs)

/-- Embeds `updateCategory` of the categories `PUT`: for each key in order,
first test the node's own id, then recurse into its subcategories, before
moving to the next sibling (depth-first, pre-order); the first node whose
`id` equals `categoryId` receives the merge, and the returned flag reports
whether any node matched.  The JavaScript mutates in place; the model returns
the resulting tree. -/
def updateCategoryForest (categoryId : Nat) (u : CategoryUpdates) :
    CatForest → CatForest × Bool
  | CatForest.nil => (CatForest.nil, false)
  | CatForest.fcons key t rest =>
    if t.catId = categoryId then
      (CatForest.fcons key (applyCategoryUpdates t u) rest, true)
    else
      match t with
      | CatTree.node i n ic subs =>
        match updateCategoryForest categoryId u subs with
        | (subs2, true) => (CatForest.fcons key (CatTree.node i n ic subs2) rest, true)
        | (_, false) =>
          match updateCategoryForest categoryId u rest with
          | (rest2, found) => (CatForest.fcons key t rest2, found)

/-- Result of the categories `PUT`: the success body
`{success, message, categories}`, or a fault. -/
inductive CategoriesPutResult where
  | okUpdated (message : String) (categories : CatForest)
  | fault (status : Nat) (message : String)

/-- Embeds the categories `PUT` handler.  On a match the whole updated tree
is persisted via `saveCategoryFile` (second component; backup, cache
invalidation and `updateCollections` are external calls without observable
effect on it) and returned in the response; otherwise the thrown 404 is
converted by the handler's catch-all into a 500 fault wrapping the
stringified `HttpError`, and nothing is persisted. -/
def categoriesPUT (categoryId : Nat) (u : CategoryUpdates)
    (cats : CatForest) :
    CategoriesPutResult × Option (CatForest) :=
  match updateCategoryForest categoryId u cats with
  | (cats2, true) =>
    (CategoriesPutResult.okUpdated ("Category updated successfully") cats2, some cats2)
  | (_, false) =>
    (CategoriesPutResult.fault 500
      (("Failed to update category: ") ++ thrownMessage (Thrown.http 404 ("Category not found"))),
      none)

mutual

/-- Whether a tree has a node (itself included) whose id is `cid`. -/
def treeContainsId (cid : Nat) : CatTree → Bool
  | CatTree.node i _ _ subs => i == cid || forestContainsId cid subs

/-- Whether a forest has a node whose id is `cid`. -/
def forestContainsId (cid : Nat) : CatForest → Bool
  | CatForest.nil => false
  | CatForest.fcons _ t rest => treeContainsId cid t || forestContainsId cid rest

end

mutual

/-- Specification side of the claim's frame property, written from its
wording: `TreeUpdatedAt cid u t t2` holds exactly when `t2` is `t` with one
node — the pre-order depth-first first whose id is `cid` — replaced by its
`Object.assign` merge with `u`, and every other node and field kept
syntactically identical.  `found` updates the root itself (its subtree
untouched); `inside` leaves the root's own fields and recurses. -/
inductive TreeUpdatedAt (cid : Nat) (u : CategoryUpdates) : CatTree → CatTree → Prop where
  | found (i : Nat) (n ic : String) (subs : CatForest) :
      i = cid →
      TreeUpdatedAt cid u (CatTree.node i n ic subs)
        (applyCategoryUpdates (CatTree.node i n ic subs) u)
  | inside (i : Nat) (n ic : String) (subs subs2 : CatForest) :
      i ≠ cid →
      ForestUpdatedAt cid u subs subs2 →
      TreeUpdatedAt cid u (CatTree.node i n ic subs) (CatTree.node i n ic subs2)

/-- Forest part of the frame relation: exactly one key's tree changes, and
every sibling before it is `cid`-free (which pins the changed node to be the
depth-first first match); all other keys and trees are identical. -/
inductive ForestUpdatedAt (cid : Nat) (u : CategoryUpdates) : CatForest → CatForest → Prop where
  | headUpd (key : String) (t t2 : CatTree) (rest : CatForest) :
      TreeUpdatedAt cid u t t2 →
      ForestUpdatedAt cid u (CatForest.fcons key t rest) (CatForest.fcons key t2 rest)
  | tailUpd (key : String) (t : CatTree) (rest rest2 : CatForest) :
      treeContainsId cid t = false →
      ForestUpdatedAt cid u rest rest2 →
      ForestUpdatedAt cid u (CatForest.fcons key t rest) (CatForest.fcons key t rest2)

end

theorem updateCategoryForest_found_flag (cid : Nat) (u : CategoryUpdates) :
    ∀ cats, (updateCategoryForest cid u cats).2 = forestContainsId cid cats := by
  intro cats
  induction cats using updateCategoryForest.induct cid u with
  | case1 => rfl
  | case2 key t rest hmatch =>
    cases t with
    | node i n ic subs =>
      have hi : (i == cid) = true := by
        have hcid : i = cid := hmatch
        simpa using hcid
      simp [updateCategoryForest, forestContainsId, treeContainsId, hmatch, hi]
  | case3 key rest i n ic subs subs2 hsub hnot ih =>
    have hsubc : forestContainsId cid subs = true := by
      rw [← ih, hsub]
    simp [updateCategoryForest, hnot, hsub, forestContainsId, treeContainsId, hsubc]
  | case4 key rest i n ic subs fst hsub rest2 found hrest hnot ihsub ihrest =>
    have hsubc : forestContainsId cid subs = false := by
      rw [← ihsub, hsub]
    have hic : (i == cid) = false := by
      have hne : i ≠ cid := hnot
      simpa using hne
    have hrestc : forestContainsId cid rest = found := by
      rw [← ihrest, hrest]
    simp [updateCategoryForest, hnot, hsub, hrest, forestContainsId, treeContainsId,
      hsubc, hic, hrestc]

theorem updateCategoryForest_found_spec (cid : Nat) (u : CategoryUpdates) :
    ∀ cats, forestContainsId cid cats = true →
      ForestUpdatedAt cid u cats (updateCategoryForest cid u cats).1 := by
  intro cats
  induction cats using updateCategoryForest.induct cid u with
  | case1 =>
    intro h
    simp [forestContainsId] at h
  | case2 key t rest hmatch =>
    intro _
    cases t with
    | node i n ic subs =>
      have heq : updateCategoryForest cid u (CatForest.fcons key (CatTree.node i n ic subs) rest) =
          (CatForest.fcons key (applyCategoryUpdates (CatTree.node i n ic subs) u) rest, true) := by
        simp [updateCategoryForest, hmatch]
      rw [heq]
      exact ForestUpdatedAt.headUpd key _ _ rest
        (TreeUpdatedAt.found i n ic subs hmatch)
  | case3 key rest i n ic subs subs2 hsub hnot ih =>
    intro _
    have heq : updateCategoryForest cid u (CatForest.fcons key (CatTree.node i n ic subs) rest) =
        (CatForest.fcons key (CatTree.node i n ic subs2) rest, true) := by
      simp [updateCategoryForest, hnot, hsub]
    rw [heq]
    have hsubc : forestContainsId cid subs = true := by
      rw [← updateCategoryForest_found_flag cid u subs, hsub]
    have hrel : ForestUpdatedAt cid u subs subs2 := by
      have := ih hsubc
      rw [hsub] at this
      exact this
    exact ForestUpdatedAt.headUpd key _ _ rest (TreeUpdatedAt.inside i n ic subs subs2 hnot hrel)
  | case4 key rest i n ic subs fst hsub rest2 found hrest hnot ihsub ihrest =>
    intro h
    have hsubc : forestContainsId cid subs = false := by
      rw [← updateCategoryForest_found_flag cid u subs, hsub]
    have hic : (i == cid) = false := by
      have hne : i ≠ cid := hnot
      simpa using hne
    have htree : treeContainsId cid (CatTree.node i n ic subs) = false := by
      simp [treeContainsId, hic, hsubc]
    have hrestc : forestContainsId cid rest = true := by
      simp [forestContainsId, htree] at h
      exact h
    have heq : updateCategoryForest cid u (CatForest.fcons key (CatTree.node i n ic subs) rest) =
        (CatForest.fcons key (CatTree.node i n ic subs) rest2, found) := by
      simp [updateCategoryForest, hnot, hsub, hrest]
    rw [heq]
    have hrel : ForestUpdatedAt cid u rest rest2 := by
      have := ihrest hrestc
      rw [hrest] at this
      exact this
    exact ForestUpdatedAt.tailUpd key _ rest rest2 htree hrel

theorem categoriesPUT_found_persists (cid : Nat) (u : CategoryUpdates) (cats : CatForest)
    (h : forestContainsId cid cats = true) :
    categoriesPUT cid u cats =
      (CategoriesPutResult.okUpdated ("Category updated successfully")
        (updateCategoryForest cid u cats).1,
       some (updateCategoryForest cid u cats).1) := by
  have h2 : (updateCategoryForest cid u cats).2 = true := by
    rw [updateCategoryForest_found_flag cid u cats]
    exact h
  have hpair : updateCategoryForest cid u cats =
      ((updateCategoryForest cid u cats).1, true) := by
    rw [← h2]
  unfold categoriesPUT
  rw [hpair]

theorem updateCategoryForest_not_found (cid : Nat) (u : CategoryUpdates) :
    ∀ cats, (updateCategoryForest cid u cats).2 = false →
      (updateCategoryForest cid u cats).1 = cats := by
  intro cats
  induction cats using updateCategoryForest.induct cid u with
  | case1 =>
    intro _
    simp [updateCategoryForest]
  | case2 key t rest hmatch =>
    intro h
    cases t with
    | node i n ic subs =>
      simp [updateCategoryForest, hmatch] at h
  | case3 key rest i n ic subs subs2 hsub hnot ih =>
    intro h
    simp [updateCategoryForest, hnot, hsub] at h
  | case4 key rest i n ic subs fst hsub rest2 found hrest hnot ihsub ihrest =>
    intro h
    have heq : updateCategoryForest cid u
          (CatForest.fcons key (CatTree.node i n ic subs) rest) =
        (CatForest.fcons key (CatTree.node i n ic subs) rest2, found) := by
      simp [updateCategoryForest, hnot, hsub, hrest]
    rw [heq] at h ⊢
    have hfound : found = false := h
    have hr2 : rest2 = rest := by
      have := ihrest (by rw [hrest, hfound])
      rw [hrest] at this
      exact this
    rw [hr2]

/-- C8: for every category tree and every `PUT` whose `categoryId` occurs in
it, the update mutates exactly the pre-order depth-first first node with that
id — merging only the supplied properties into it and leaving every other
key, node and field unchanged (the `ForestUpdatedAt` frame relation) — and
persists and returns the entire updated tree.  Also: the found flag is
exactly id-containment; a search that matches nothing returns the tree
unchanged; and two concrete instances — the claim's own tree
`\x7bA:\x7bid:1\x7d, B:\x7bid:2, subcategories:\x7bC:\x7bid:3\x7d\x7d\x7d\x7d`
where updating id 3 mutates exactly node C, and a depth-first tie-break
where a match inside an earlier sibling's subcategories wins over a later
top-level sibling with the same id. -/
theorem claim_C8_category_put :
    (∀ (cid : Nat) (u : CategoryUpdates) (cats : CatForest),
      forestContainsId cid cats = true →
        ForestUpdatedAt cid u cats (updateCategoryForest cid u cats).1
        ∧ categoriesPUT cid u cats =
          (CategoriesPutResult.okUpdated ("Category updated successfully")
            (updateCategoryForest cid u cats).1,
           some (updateCategoryForest cid u cats).1))
    ∧ (∀ (cid : Nat) (u : CategoryUpdates) (cats : CatForest),
      (updateCategoryForest cid u cats).2 = forestContainsId cid cats)
    ∧ (∀ (cid : Nat) (u : CategoryUpdates) (cats : CatForest),
      (updateCategoryForest cid u cats).2 = false →
        (updateCategoryForest cid u cats).1 = cats)
    ∧ (categoriesPUT 3 ⟨none, some ("c2"), some ("i2"), none⟩
        (CatForest.fcons ("A") (CatTree.node 1 ("a") ("ia") CatForest.nil)
          (CatForest.fcons ("B") (CatTree.node 2 ("b") ("ib")
            (CatForest.fcons ("C") (CatTree.node 3 ("c") ("ic") CatForest.nil) CatForest.nil))
            CatForest.nil)) =
       (CategoriesPutResult.okUpdated ("Category updated successfully")
          (CatForest.fcons ("A") (CatTree.node 1 ("a") ("ia") CatForest.nil)
            (CatForest.fcons ("B") (CatTree.node 2 ("b") ("ib")
              (CatForest.fcons ("C") (CatTree.node 3 ("c2") ("i2") CatForest.nil) CatForest.nil))
              CatForest.nil)),
        some (CatForest.fcons ("A") (CatTree.node 1 ("a") ("ia") CatForest.nil)
          (CatForest.fcons ("B") (CatTree.node 2 ("b") ("ib")
            (CatForest.fcons ("C") (CatTree.node 3 ("c2") ("i2") CatForest.nil) CatForest.nil))
            CatForest.nil))))
    ∧ (updateCategoryForest 9 ⟨none, none, some ("i9"), none⟩
        (CatForest.fcons ("A") (CatTree.node 1 ("a") ("ia")
            (CatForest.fcons ("S") (CatTree.node 9 ("s") ("is") CatForest.nil) CatForest.nil))
          (CatForest.fcons ("B") (CatTree.node 9 ("b") ("ib") CatForest.nil) CatForest.nil)) =
       (CatForest.fcons ("A") (CatTree.node 1 ("a") ("ia")
            (CatForest.fcons ("S") (CatTree.node 9 ("s") ("i9") CatForest.nil) CatForest.nil))
          (CatForest.fcons ("B") (CatTree.node 9 ("b") ("ib") CatForest.nil) CatForest.nil),
        true)) := by
  refine ⟨?_, ?_, updateCategoryForest_not_found, ?_, ?_⟩
  · intro cid u cats h
    exact ⟨updateCategoryForest_found_spec cid u cats h, categoriesPUT_found_persists cid u cats h⟩
  · intro cid u cats
    exact updateCategoryForest_found_flag cid u cats
  · rfl
  · rfl

/-- Witness for C8: on the claim's concrete tree, id 3 is present, the frame
relation holds of the result and the whole updated tree is persisted; and
searching for an absent id leaves another concrete tree unchanged. -/
theorem claim_C8_category_put_witness :
    (ForestUpdatedAt 3 ⟨none, some ("c2"), some ("i2"), none⟩
        (CatForest.fcons ("A") (CatTree.node 1 ("a") ("ia") CatForest.nil)
          (CatForest.fcons ("B") (CatTree.node 2 ("b") ("ib")
            (CatForest.fcons ("C") (CatTree.node 3 ("c") ("ic") CatForest.nil) CatForest.nil))
            CatForest.nil))
        (updateCategoryForest 3 ⟨none, some ("c2"), some ("i2"), none⟩
          (CatForest.fcons ("A") (CatTree.node 1 ("a") ("ia") CatForest.nil)
            (CatForest.fcons ("B") (CatTree.node 2 ("b") ("ib")
              (CatForest.fcons ("C") (CatTree.node 3 ("c") ("ic") CatForest.nil) CatForest.nil))
              CatForest.nil))).1
      ∧ categoriesPUT 3 ⟨none, some ("c2"), some ("i2"), none⟩
          (CatForest.fcons ("A") (CatTree.node 1 ("a") ("ia") CatForest.nil)
            (CatForest.fcons ("B") (CatTree.node 2 ("b") ("ib")
              (CatForest.fcons ("C") (CatTree.node 3 ("c") ("ic") CatForest.nil) CatForest.nil))
              CatForest.nil)) =
        (CategoriesPutResult.okUpdated ("Category updated successfully")
          (updateCategoryForest 3 ⟨none, some ("c2"), some ("i2"), none⟩
            (CatForest.fcons ("A") (CatTree.node 1 ("a") ("ia") CatForest.nil)
              (CatForest.fcons ("B") (CatTree.node 2 ("b") ("ib")
                (CatForest.fcons ("C") (CatTree.node 3 ("c") ("ic") CatForest.nil) CatForest.nil))
                CatForest.nil))).1,
         some (updateCategoryForest 3 ⟨none, some ("c2"), some ("i2"), none⟩
            (CatForest.fcons ("A") (CatTree.node 1 ("a") ("ia") CatForest.nil)
              (CatForest.fcons ("B") (CatTree.node 2 ("b") ("ib")
                (CatForest.fcons ("C") (CatTree.node 3 ("c") ("ic") CatForest.nil) CatForest.nil))
                CatForest.nil))).1))
    ∧ (updateCategoryForest 7 ⟨none, none, none, none⟩
        (CatForest.fcons ("A") (CatTree.node 1 ("a") ("ia") CatForest.nil) CatForest.nil)).1 =
      CatForest.fcons ("A") (CatTree.node 1 ("a") ("ia") CatForest.nil) CatForest.nil :=
  ⟨claim_C8_category_put.1 3 ⟨none, some ("c2"), some ("i2"), none⟩
      (CatForest.fcons ("A") (CatTree.node 1 ("a") ("ia") CatForest.nil)
        (CatForest.fcons ("B") (CatTree.node 2 ("b") ("ib")
          (CatForest.fcons ("C") (CatTree.node 3 ("c") ("ic") CatForest.nil) CatForest.nil))
          CatForest.nil))
      rfl,
   claim_C8_category_put.2.2.1 7 ⟨none, none, none, none⟩
      (CatForest.fcons ("A") (CatTree.node 1 ("a") ("ia") CatForest.nil) CatForest.nil)
      rfl⟩

end SveltyCMS
